import Mathlib

/-!
# Verification of the SPY Wheel screener core (src/app.py)

Shallow embedding of the screening pipeline of `src/app.py`:

* the per-ticker screener `process_ticker` (src/app.py lines 94-154),
* the concurrent orchestrator `screen_stocks` (src/app.py lines 87-169).

Modelling conventions:

* Python floats are modelled as rationals (`ℚ`).  A pandas cell that may be
  `NaN` (the `volume` / `openInterest` columns of a put chain) is modelled as
  `Option ℚ`, `none` standing for `NaN`; the comparison `NaN < x` is `False`
  in Python, which `ltNaN` reproduces.
* `dict.get(key, 0)` on the yfinance `info` dict is `Option.getD 0`.
* Calendar dates are day numbers (`Int`); `pd.to_datetime(d).date() - today`
  becomes integer subtraction.
* The provider (yfinance + the Twelve Data earnings endpoint) is a record of
  functions returning `Except Unit _`: `.error` is a raised exception, which
  the `try/except` of `process_ticker` catches.  `get_earnings_date`
  (lines 37-46) catches its own exceptions and returns `None`, so it is
  modelled as already total, returning `Option Int`.
* `df.sort_values` is modelled with `List.insertionSort` over the relevant
  key.  pandas' default sort kind is `quicksort`, whose tie order is not
  specified; every theorem below that depends on concrete sort output is
  insensitive to that choice except where its doc comment says otherwise.
* The `ThreadPoolExecutor` / `as_completed` loop of `screen_stocks`
  (lines 156-163) appends each finished ticker's rows in completion order;
  the completion order is an explicit parameter (`order`), a permutation of
  the submitted universe.
-/

namespace SpyWheel

/-! ## Filter configuration (src/app.py lines 69-75) -/

def PRICE_MIN : ℚ := 5

def PRICE_MAX : ℚ := 50

def MARKET_CAP_MIN_B : ℚ := 1

def DAYS_OUT : Nat := 0

def FILTER_EARNINGS : Bool := true

def MIN_VOL : ℚ := 10

def MIN_OI : ℚ := 100

/-! ## Data model -/

/-- The fields of the yfinance `info` dict that `process_ticker` reads
(src/app.py lines 98-101).  `none` models an absent key. -/
structure TickerFields where
  currentPrice : Option ℚ
  marketCap : Option ℚ
  impliedVolatility : Option ℚ
deriving Repr, DecidableEq

/-- One row of the put chain (src/app.py lines 130-133).  `volume` and
`openInterest` are `Option ℚ` because pandas delivers `NaN` for a missing
cell; `none` is `NaN`. -/
structure PutContract where
  strike : ℚ
  bid : ℚ
  volume : Option ℚ
  openInterest : Option ℚ
deriving Repr, DecidableEq

/-- The external data provider as `process_ticker` consumes it.  Each
`Except Unit _` call may fault (`.error ()` = a raised exception); the
earnings lookup never faults because `get_earnings_date` has its own
catch-all (src/app.py lines 37-46). -/
structure Provider where
  info : String → Except Unit TickerFields
  earningsDate : String → Option Int
  expirations : String → Except Unit (List Int)
  putChain : String → Int → Except Unit (List PutContract)

/-- The output row built at src/app.py lines 139-150.  Numeric fields carry
the same rounding the source applies (`round(x, 2)` / `int(x)`); the
`IV` display string is kept as the optional raw value. -/
structure CandidateRow where
  ticker : String
  price : ℚ
  marketCapB : ℚ
  ivDisplay : Option ℚ
  putStrike : ℚ
  putBid : ℚ
  premiumYieldPercent : ℚ
  volume : ℤ
  openInterest : ℤ
  earningsDate : Option Int
deriving Repr, DecidableEq

/-! ## Numeric helpers -/

/-- Python `int(x)` on a float: truncation toward zero. -/
def truncQ (q : ℚ) : ℤ :=
  if q < 0 then ⌈q⌉ else ⌊q⌋

/-- Round to the nearest integer, ties to the even integer: the rounding
Python's builtin `round` uses. -/
def roundHalfEven (q : ℚ) : ℤ :=
  let n : ℤ := ⌊q⌋
  let f : ℚ := q - n
  if f < 1 / 2 then n
  else if 1 / 2 < f then n + 1
  else if Even n then n else n + 1

/-- Python `round(x, 2)`. -/
def round2 (q : ℚ) : ℚ :=
  (roundHalfEven (q * 100) : ℚ) / 100

/-- The comparison `v < c` where `v` is a pandas cell that may be `NaN`
(`none`): any comparison against `NaN` is `False`. -/
def ltNaN (v : Option ℚ) (c : ℚ) : Bool :=
  match v with
  | none => false
  | some x => decide (x < c)

/-! ## Per-ticker screener (src/app.py lines 94-154) -/

/-- The earnings gate of src/app.py lines 104-108: skip when
`FILTER_EARNINGS` is on, an earnings date is present, and
`0 <= (earningsDate - today).days <= 14`. -/
def earningsSkip (today : Int) (ed : Option Int) : Bool :=
  FILTER_EARNINGS &&
    match ed with
    | none => false
    | some d => decide (0 ≤ d - today) && decide (d - today ≤ 14)

/-- `delta_estimate` of src/app.py line 123: `abs((strike - price) / price)`. -/
def deltaEst (price : ℚ) (c : PutContract) : ℚ :=
  |(c.strike - price) / price|

/-- Comparison key for `puts.sort_values(by="delta_estimate")`
(src/app.py line 125). -/
def deltaLE (price : ℚ) (a b : PutContract) : Prop :=
  deltaEst price a ≤ deltaEst price b

instance (price : ℚ) : DecidableRel (deltaLE price) :=
  fun a b => inferInstanceAs (Decidable (deltaEst price a ≤ deltaEst price b))

instance (price : ℚ) : IsTotal PutContract (deltaLE price) :=
  ⟨fun a b => le_total (deltaEst price a) (deltaEst price b)⟩

instance (price : ℚ) : IsTrans PutContract (deltaLE price) :=
  ⟨fun _ _ _ hab hbc => le_trans hab hbc⟩

/-- The liquidity gate of src/app.py line 136:
`put_vol < MIN_VOL or put_oi < MIN_OI` (with `NaN` comparing `False`). -/
def liquidityDrop (c : PutContract) : Bool :=
  ltNaN c.volume MIN_VOL || ltNaN c.openInterest MIN_OI

/-- `cap_b = market_cap / 1e9 if market_cap else 0` (src/app.py line 100);
`market_cap` is `info.get("marketCap", 0)`, and `0` is falsy in Python. -/
def capBOf (fields : TickerFields) : ℚ :=
  if fields.marketCap.getD 0 = 0 then 0 else fields.marketCap.getD 0 / 1000000000

/-- The row literal of src/app.py lines 139-150. -/
def mkRow (ticker : String) (price capB : ℚ) (iv : Option ℚ) (ed : Option Int)
    (c : PutContract) : CandidateRow :=
  { ticker := ticker
    price := round2 price
    marketCapB := round2 capB
    ivDisplay := iv
    putStrike := c.strike
    putBid := round2 c.bid
    premiumYieldPercent := round2 (if 0 < price then c.bid / price * 100 else 0)
    volume := truncQ (c.volume.getD 0)
    openInterest := truncQ (c.openInterest.getD 0)
    earningsDate := ed }

/-- The selection and row-building loop of src/app.py lines 123-151:
assign `delta_estimate`, keep strikes strictly below price, sort ascending
by `delta_estimate`, take the head 3, then drop illiquid contracts and emit
a row for each survivor. -/
def selectRows (t : String) (fields : TickerFields) (ed : Option Int)
    (puts : List PutContract) : List CandidateRow :=
  let price := fields.currentPrice.getD 0
  let otm := puts.filter fun c => decide (c.strike < price)
  let near := (List.insertionSort (deltaLE price) otm).take 3
  let kept := near.filter fun c => ! liquidityDrop c
  kept.map (mkRow t price (capBOf fields) fields.impliedVolatility ed)

/-- The body of the `try` block of `process_ticker` (src/app.py
lines 95-151).  `.error ()` means an uncaught exception escaped a provider
call; `.ok none` is an explicit `return None` (a gate skip); `.ok (some rows)`
is the `result` list (possibly empty). -/
def process_body (p : Provider) (today : Int) (t : String) :
    Except Unit (Option (List CandidateRow)) :=
  match p.info t with
  | .error e => .error e
  | .ok fields =>
    if earningsSkip today (p.earningsDate t) then .ok none
    else if ¬ (PRICE_MIN ≤ fields.currentPrice.getD 0 ∧
        fields.currentPrice.getD 0 ≤ PRICE_MAX ∧
        MARKET_CAP_MIN_B ≤ capBOf fields) then .ok none
    else
      match p.expirations t with
      | .error e => .error e
      | .ok exps =>
        if exps.isEmpty ∨ exps.length ≤ DAYS_OUT then .ok none
        else
          match p.putChain t (exps.getD DAYS_OUT 0) with
          | .error e => .error e
          | .ok puts =>
            if puts.isEmpty then .ok none
            else .ok (some (selectRows t fields (p.earningsDate t) puts))

/-- `process_ticker` (src/app.py lines 94-154): the `try` body with the
catch-all `except` mapping any fault to `None`. -/
def process_ticker (p : Provider) (today : Int) (t : String) :
    Option (List CandidateRow) :=
  match process_body p today t with
  | .error _ => none
  | .ok r => r

/-! ## Orchestrator (src/app.py lines 87-169) -/

/-- Sort key for `df.sort_values(by="Market Cap ($B)", ascending=False)`
(src/app.py line 168). -/
def capGE (a b : CandidateRow) : Prop :=
  b.marketCapB ≤ a.marketCapB

instance : DecidableRel capGE :=
  fun a b => inferInstanceAs (Decidable (b.marketCapB ≤ a.marketCapB))

instance : IsTotal CandidateRow capGE :=
  ⟨fun a b => le_total b.marketCapB a.marketCapB⟩

instance : IsTrans CandidateRow capGE :=
  ⟨fun _ _ _ hab hbc => le_trans hbc hab⟩

/-- Market-cap strictly descending, allowing equality only of identical
rows: the relation under which a ranked list with pairwise-distinct
displayed caps is unique among the orderings of its rows. -/
def capGT (a b : CandidateRow) : Prop :=
  b.marketCapB < a.marketCapB ∨ a = b

instance : IsAntisymm CandidateRow capGT where
  antisymm a b hab hba := by
    rcases hab with h1 | h1
    · rcases hba with h2 | h2
      · exact absurd (h1.trans h2) (lt_irrefl _)
      · exact h2.symm
    · exact h1

/-- `delta_estimate` read off an emitted row: the row carries the raw
strike, so its distance-to-price is recoverable from the row. -/
def rowDelta (price : ℚ) (r : CandidateRow) : ℚ :=
  |(r.putStrike - price) / price|

/-- What a completed run hands back: the (sorted) DataFrame rows together
with the sequence of fractions sent to the progress bar (the only other
output channel of `screen_stocks`). -/
structure ScreeningRun where
  rows : List CandidateRow
  progressTrace : List ℚ
deriving Repr, DecidableEq

/-- One iteration of the `as_completed` loop (src/app.py lines 158-163):
extend `screened` when the result is truthy (`None` and `[]` are falsy),
then bump `completed` and report progress. -/
def screenStep (p : Provider) (today : Int) (total : Nat)
    (st : List CandidateRow × Nat × List ℚ) (t : String) :
    List CandidateRow × Nat × List ℚ :=
  let result := process_ticker p today t
  let screened :=
    match result with
    | some r => if r.isEmpty then st.1 else st.1 ++ r
    | none => st.1
  let completed := st.2.1 + 1
  (screened, completed, st.2.2 ++ [(completed : ℚ) / (total : ℚ)])

/-- `screen_stocks` (src/app.py lines 87-169).  `order` is the order in
which `as_completed` delivers the finished futures: as a list it is the
submitted universe, as an order it is the (nondeterministic) completion
order.  The final DataFrame is sorted by market cap descending unless
empty. -/
def screen_stocks (p : Provider) (today : Int) (order : List String) :
    ScreeningRun :=
  let final := order.foldl (screenStep p today order.length) ([], 0, [])
  let df := final.1
  { rows := if df.isEmpty then df else List.insertionSort capGE df
    progressTrace := final.2.2 }

/-- The screened rows of a run, before ranking: each ticker's contribution
in completion order (src/app.py lines 158-161). -/
def accumulate (p : Provider) (today : Int) : List String → List CandidateRow
  | [] => []
  | t :: ts =>
    (match process_ticker p today t with
      | some r => if r.isEmpty then [] else r
      | none => []) ++ accumulate p today ts

/-- What one ticker appends to `screened` (src/app.py lines 159-161):
its row list when truthy, nothing when `None` or `[]`. -/
def contribution (p : Provider) (today : Int) (t : String) : List CandidateRow :=
  match process_ticker p today t with
  | some r => if r.isEmpty then [] else r
  | none => []

/-- The count of symbols whose evaluation did not fault, the spec's
"successfully evaluated" number: a gate skip is a successful evaluation
with zero candidates, a caught exception is not. -/
def succeededCount (p : Provider) (today : Int) (order : List String) : Nat :=
  (order.filter fun t =>
    match process_body p today t with
    | .ok _ => true
    | .error _ => false).length

/-! ## Observation helpers: what the provider delivered for a ticker -/

/-- The `info` snapshot a run sees for `t` (all-absent when the fetch
faults; a faulting ticker produces no rows anyway). -/
def snapshotFields (p : Provider) (t : String) : TickerFields :=
  match p.info t with
  | .error _ => ⟨none, none, none⟩
  | .ok fields => fields

/-- The ticker's current price as the screener reads it:
`info.get("currentPrice", 0)` (src/app.py line 98). -/
def snapshotPrice (p : Provider) (t : String) : ℚ :=
  (snapshotFields p t).currentPrice.getD 0

/-- The put chain fetched for the expiration at index `DAYS_OUT`
(src/app.py lines 113-119); `[]` when a fetch faults. -/
def fetchedPuts (p : Provider) (t : String) : List PutContract :=
  match p.expirations t with
  | .error _ => []
  | .ok exps =>
    match p.putChain t (exps.getD DAYS_OUT 0) with
    | .error _ => []
    | .ok puts => puts

/-! ## Concrete test fixtures

A well-behaved provider and some deliberately degenerate ones, used by the
closed instance theorems below.  `goodP` answers every ticker with
price 30, market cap 2e9, one expiration and a single liquid put at
strike 29 / bid 0.20. -/

def goodP : Provider :=
  { info := fun _ => .ok ⟨some 30, some 2000000000, none⟩
    earningsDate := fun _ => none
    expirations := fun _ => .ok [0]
    putChain := fun _ _ => .ok [⟨29, 2 / 10, some 50, some 200⟩] }

/-- The row `goodP` produces for ticker `t`:
premium yield = round(0.2 / 30 × 100, 2) = 0.67. -/
def rowFor (t : String) : CandidateRow :=
  ⟨t, 30, 2, none, 29, 1 / 5, 67 / 100, 50, 200, none⟩

/-- `goodP` except that fetching ticker B's info raises. -/
def faultP : Provider :=
  { info := fun t =>
      if t = "B" then .error () else .ok ⟨some 30, some 2000000000, none⟩
    earningsDate := fun _ => none
    expirations := fun _ => .ok [0]
    putChain := fun _ _ => .ok [⟨29, 2 / 10, some 50, some 200⟩] }

/-- `goodP` except that earnings are 7 days ahead of day 0. -/
def earnP : Provider :=
  { info := fun _ => .ok ⟨some 30, some 2000000000, none⟩
    earningsDate := fun _ => some 7
    expirations := fun _ => .ok [0]
    putChain := fun _ _ => .ok [⟨29, 2 / 10, some 50, some 200⟩] }

/-- A provider whose every info fetch raises: each symbol is attempted and
none succeeds. -/
def allFaultP : Provider :=
  { info := fun _ => .error ()
    earningsDate := fun _ => none
    expirations := fun _ => .ok []
    putChain := fun _ _ => .ok [] }

/-- A provider whose every symbol evaluates successfully but is skipped by
the fundamental gate (price 100 is above `PRICE_MAX`). -/
def skipP : Provider :=
  { info := fun _ => .ok ⟨some 100, some 2000000000, none⟩
    earningsDate := fun _ => none
    expirations := fun _ => .ok []
    putChain := fun _ _ => .ok [] }

/-- `goodP` with bid 0.01: the premium yield (0.01 / 30) × 100 = 1/30 has
no exact two-decimal representation. -/
def thinBidP : Provider :=
  { info := fun _ => .ok ⟨some 30, some 2000000000, none⟩
    earningsDate := fun _ => none
    expirations := fun _ => .ok [0]
    putChain := fun _ _ => .ok [⟨29, 1 / 100, some 50, some 200⟩] }

/-- `goodP` except ticker A has market cap 2e9 and every other ticker 3e9:
displayed caps are pairwise distinct across a two-ticker universe. -/
def twoCapP : Provider :=
  { info := fun t =>
      .ok ⟨some 30, some (if t = "A" then 2000000000 else 3000000000), none⟩
    earningsDate := fun _ => none
    expirations := fun _ => .ok [0]
    putChain := fun _ _ => .ok [⟨29, 2 / 10, some 50, some 200⟩] }

/-- A put contract whose `volume` and `openInterest` cells are `NaN`. -/
def nanPut : PutContract := ⟨29, 2 / 10, none, none⟩

/-- `goodP` with `nanPut` as its only chain row. -/
def nanChainP : Provider :=
  { info := fun _ => .ok ⟨some 30, some 2000000000, none⟩
    earningsDate := fun _ => none
    expirations := fun _ => .ok [0]
    putChain := fun _ _ => .ok [nanPut] }

/-! ## Basic lemmas on the per-ticker screener -/

theorem process_ticker_of_body_ok {p : Provider} {today : Int} {t : String}
    {r : Option (List CandidateRow)} (hb : process_body p today t = .ok r) :
    process_ticker p today t = r := by
  unfold process_ticker
  rw [hb]

theorem process_ticker_of_body_error {p : Provider} {today : Int} {t : String}
    {e : Unit} (hb : process_body p today t = .error e) :
    process_ticker p today t = none := by
  unfold process_ticker
  rw [hb]

/-- Inversion: a ticker that produced a row list passed every gate, and the
rows are exactly the selection pipeline applied to the fetched chain. -/
theorem process_ticker_eq_some {p : Provider} {today : Int} {t : String}
    {rows : List CandidateRow} (h : process_ticker p today t = some rows) :
    ∃ fields exps puts,
      p.info t = .ok fields ∧
      p.expirations t = .ok exps ∧
      p.putChain t (exps.getD DAYS_OUT 0) = .ok puts ∧
      earningsSkip today (p.earningsDate t) = false ∧
      PRICE_MIN ≤ fields.currentPrice.getD 0 ∧
      fields.currentPrice.getD 0 ≤ PRICE_MAX ∧
      MARKET_CAP_MIN_B ≤ capBOf fields ∧
      rows = selectRows t fields (p.earningsDate t) puts := by
  have hpt := h
  unfold process_ticker at hpt
  cases hb : process_body p today t with
  | error e => rw [hb] at hpt; exact absurd hpt (by simp)
  | ok r =>
    rw [hb] at hpt
    subst hpt
    unfold process_body at hb
    split at hb
    · exact absurd hb (by simp)
    next fields hinfo =>
      split at hb
      · exact absurd hb (by simp)
      next hskip =>
        split at hb
        · exact absurd hb (by simp)
        next hgate =>
          split at hb
          · exact absurd hb (by simp)
          next exps hexps =>
            split at hb
            · exact absurd hb (by simp)
            next hlen =>
              split at hb
              · exact absurd hb (by simp)
              next puts hchain =>
                split at hb
                · exact absurd hb (by simp)
                next hne =>
                  have hA := not_not.mp hgate
                  exact ⟨fields, exps, puts, hinfo, hexps, hchain, by simpa using hskip,
                    hA.1, hA.2.1, hA.2.2, (Option.some.inj (Except.ok.inj hb)).symm⟩

/-! ## Lemmas on the orchestrator loop -/

theorem accumulate_cons (p : Provider) (today : Int) (t : String)
    (ts : List String) :
    accumulate p today (t :: ts) =
      contribution p today t ++ accumulate p today ts := rfl

theorem screenStep_eq (p : Provider) (today : Int) (total : Nat)
    (acc : List CandidateRow) (n : Nat) (tr : List ℚ) (t : String) :
    screenStep p today total (acc, n, tr) t =
      (acc ++ contribution p today t, n + 1,
        tr ++ [((n + 1 : ℕ) : ℚ) / (total : ℚ)]) := by
  unfold screenStep contribution
  cases hpt : process_ticker p today t with
  | none => simp
  | some r => cases hr : r.isEmpty <;> simp_all

theorem foldl_screenStep_fst (p : Provider) (today : Int) (total : Nat) :
    ∀ (order : List String) (acc : List CandidateRow) (n : Nat) (tr : List ℚ),
      (order.foldl (screenStep p today total) (acc, n, tr)).1 =
        acc ++ accumulate p today order
  | [], acc, n, tr => by simp [accumulate]
  | t :: ts, acc, n, tr => by
    rw [List.foldl_cons, screenStep_eq,
      foldl_screenStep_fst p today total ts _ _ _, accumulate_cons,
      List.append_assoc]

theorem foldl_screenStep_trace (p : Provider) (today : Int) (total : Nat) :
    ∀ (order : List String) (acc : List CandidateRow) (n : Nat) (tr : List ℚ),
      (order.foldl (screenStep p today total) (acc, n, tr)).2.2.length =
        tr.length + order.length
  | [], acc, n, tr => by simp
  | t :: ts, acc, n, tr => by
    rw [List.foldl_cons, screenStep_eq,
      foldl_screenStep_trace p today total ts _ _ _]
    simp
    omega

theorem screen_stocks_rows (p : Provider) (today : Int) (order : List String) :
    (screen_stocks p today order).rows =
      if (accumulate p today order).isEmpty then accumulate p today order
      else List.insertionSort capGE (accumulate p today order) := by
  unfold screen_stocks
  dsimp only
  rw [foldl_screenStep_fst, List.nil_append]

theorem screen_stocks_trace_length (p : Provider) (today : Int)
    (order : List String) :
    (screen_stocks p today order).progressTrace.length = order.length := by
  unfold screen_stocks
  dsimp only
  rw [foldl_screenStep_trace]
  simp

theorem screen_rows_perm_accumulate (p : Provider) (today : Int)
    (order : List String) :
    ((screen_stocks p today order).rows).Perm (accumulate p today order) := by
  rw [screen_stocks_rows]
  split
  · exact .refl _
  · exact List.perm_insertionSort _ _

theorem screen_rows_sorted (p : Provider) (today : Int) (order : List String) :
    List.Sorted capGE (screen_stocks p today order).rows := by
  rw [screen_stocks_rows]
  split
  next h => rw [List.isEmpty_iff.mp h]; exact List.sorted_nil
  next h => exact List.sorted_insertionSort _ _

theorem accumulate_perm (p : Provider) (today : Int) {o₁ o₂ : List String}
    (h : o₁.Perm o₂) :
    (accumulate p today o₁).Perm (accumulate p today o₂) := by
  induction h with
  | nil => exact .refl _
  | cons x h ih =>
    rw [accumulate_cons, accumulate_cons]
    exact ih.append_left _
  | swap x y l =>
    rw [accumulate_cons, accumulate_cons, accumulate_cons, accumulate_cons,
      ← List.append_assoc, ← List.append_assoc]
    exact List.perm_append_comm.append_right _
  | trans h₁ h₂ ih₁ ih₂ => exact ih₁.trans ih₂

theorem accumulate_filter_of_none (p : Provider) (today : Int) (b : String)
    (hb : process_ticker p today b = none) :
    ∀ order : List String,
      accumulate p today order =
        accumulate p today (order.filter fun t => t ≠ b)
  | [] => rfl
  | t :: ts => by
    by_cases ht : t = b
    · subst ht
      rw [accumulate_cons, List.filter_cons]
      have hc : contribution p today t = [] := by
        unfold contribution
        rw [hb]
      simp [hc, accumulate_filter_of_none p today t hb ts]
    · rw [accumulate_cons, List.filter_cons, if_pos (by simp [ht]),
        accumulate_cons, accumulate_filter_of_none p today b hb ts]

/-! ## Bridging the observation helpers to successful fetches -/

theorem snapshotPrice_eq {p : Provider} {t : String} {fields : TickerFields}
    (h : p.info t = .ok fields) :
    snapshotPrice p t = fields.currentPrice.getD 0 := by
  unfold snapshotPrice snapshotFields
  rw [h]

theorem fetchedPuts_eq {p : Provider} {t : String} {exps : List Int}
    {puts : List PutContract} (h1 : p.expirations t = .ok exps)
    (h2 : p.putChain t (exps.getD DAYS_OUT 0) = .ok puts) :
    fetchedPuts p t = puts := by
  simp only [fetchedPuts, h1, h2]

/-! ## Lemmas on the selection pipeline -/

theorem selectRows_mem {t : String} {fields : TickerFields} {ed : Option Int}
    {puts : List PutContract} {r : CandidateRow}
    (hr : r ∈ selectRows t fields ed puts) :
    ∃ c ∈ (List.insertionSort (deltaLE (fields.currentPrice.getD 0))
        (puts.filter fun c =>
          decide (c.strike < fields.currentPrice.getD 0))).take 3,
      liquidityDrop c = false ∧
      r = mkRow t (fields.currentPrice.getD 0) (capBOf fields)
        fields.impliedVolatility ed c := by
  unfold selectRows at hr
  rcases List.mem_map.mp hr with ⟨c, hc, hrc⟩
  rcases List.mem_filter.mp hc with ⟨hctake, hcliq⟩
  exact ⟨c, hctake, by simpa using hcliq, hrc.symm⟩

theorem mem_take3_otm {price : ℚ} {puts : List PutContract} {c : PutContract}
    (hc : c ∈ (List.insertionSort (deltaLE price)
        (puts.filter fun c => decide (c.strike < price))).take 3) :
    c ∈ puts ∧ c.strike < price := by
  have h1 : c ∈ List.insertionSort (deltaLE price)
      (puts.filter fun c => decide (c.strike < price)) :=
    List.take_subset 3 _ hc
  have h3 : c ∈ puts.filter fun c => decide (c.strike < price) :=
    (List.perm_insertionSort (deltaLE price) _).subset h1
  rcases List.mem_filter.mp h3 with ⟨hp, hdec⟩
  exact ⟨hp, of_decide_eq_true hdec⟩

/-- Anything in the chain strictly closer to the money than a selected
contract was itself among the three selected contracts. -/
theorem take3_minimal {price : ℚ} {puts : List PutContract}
    {a c : PutContract}
    (ha : a ∈ (List.insertionSort (deltaLE price)
        (puts.filter fun c => decide (c.strike < price))).take 3)
    (hcp : c ∈ puts) (hcotm : c.strike < price)
    (hlt : deltaEst price c < deltaEst price a) :
    c ∈ (List.insertionSort (deltaLE price)
        (puts.filter fun c => decide (c.strike < price))).take 3 := by
  set sorted := List.insertionSort (deltaLE price)
    (puts.filter fun c => decide (c.strike < price)) with hsorted
  have hcin : c ∈ sorted := by
    refine (List.perm_insertionSort (deltaLE price) _).symm.subset ?_
    exact List.mem_filter.mpr ⟨hcp, decide_eq_true hcotm⟩
  have hsort : List.Pairwise (deltaLE price) sorted :=
    List.sorted_insertionSort (deltaLE price) _
  rw [← List.take_append_drop 3 sorted] at hsort hcin
  rcases List.mem_append.mp hcin with hin | hin
  · exact hin
  · exact absurd ((List.pairwise_append.mp hsort).2.2 a ha c hin)
      (not_le.mpr hlt)

/-! ## Uniqueness of the ranked order when displayed caps are distinct -/

theorem sorted_capGT_of_nodup {l : List CandidateRow}
    (hs : List.Sorted capGE l)
    (hn : (l.map CandidateRow.marketCapB).Nodup) :
    List.Sorted capGT l := by
  have hne : l.Pairwise fun a b => a.marketCapB ≠ b.marketCapB :=
    List.pairwise_map.mp hn
  exact (List.Pairwise.and hs hne).imp fun h =>
    Or.inl (lt_of_le_of_ne h.1 fun he => h.2 he.symm)

theorem ranked_eq_of_perm_of_nodup {l₁ l₂ : List CandidateRow}
    (hp : l₁.Perm l₂) (hs₁ : List.Sorted capGE l₁)
    (hs₂ : List.Sorted capGE l₂)
    (hn : (l₁.map CandidateRow.marketCapB).Nodup) : l₁ = l₂ := by
  have hn₂ : (l₂.map CandidateRow.marketCapB).Nodup :=
    ((hp.map CandidateRow.marketCapB).nodup_iff).mp hn
  exact List.eq_of_perm_of_sorted hp (sorted_capGT_of_nodup hs₁ hn)
    (sorted_capGT_of_nodup hs₂ hn₂)

/-! ## The claims -/

/-- C1: every CandidateRow the per-ticker screener emits has its put strike
strictly below the ticker's current price — the selection keeps only
strikes strictly less than `price` (src/app.py line 124) before taking the
head of the sorted chain, so every emitted row is strictly
out-of-the-money. -/
theorem candidate_strike_strictly_otm (p : Provider) (today : Int)
    (t : String) (rows : List CandidateRow) (r : CandidateRow)
    (h : process_ticker p today t = some rows) (hr : r ∈ rows) :
    r.putStrike < snapshotPrice p t := by
  rcases process_ticker_eq_some h with
    ⟨fields, exps, puts, hinfo, hexps, hchain, -, -, -, -, hrows⟩
  subst hrows
  rcases selectRows_mem hr with ⟨c, hc, -, hrc⟩
  rw [snapshotPrice_eq hinfo, hrc]
  exact (mem_take3_otm hc).2

/-- Closed instance of `candidate_strike_strictly_otm`: the single row the
well-behaved fixture emits has strike 29 below price 30. -/
theorem candidate_strike_strictly_otm_inst :
    (rowFor "XYZ").putStrike < snapshotPrice goodP "XYZ" :=
  candidate_strike_strictly_otm goodP 0 "XYZ" [rowFor "XYZ"] (rowFor "XYZ")
    (by norm_num [process_ticker, process_body, selectRows, goodP, rowFor,
      earningsSkip, FILTER_EARNINGS, PRICE_MIN, PRICE_MAX, MARKET_CAP_MIN_B,
      DAYS_OUT, MIN_VOL, MIN_OI, capBOf, mkRow, round2, roundHalfEven,
      truncQ, liquidityDrop, ltNaN, deltaEst, List.insertionSort,
      List.orderedInsert, List.filter, List.take])
    (List.mem_singleton.mpr rfl)

/-- C5: with earnings filtering enabled (`FILTER_EARNINGS` is hard-enabled)
and an earnings date present whose distance from today lies in the
exclusion window `0..14`, the ticker is skipped before the price and
market-cap gates are even consulted: zero rows for it, for every provider
response. -/
theorem earnings_window_zero_rows (p : Provider) (today : Int) (t : String)
    (d : Int) (hed : p.earningsDate t = some d) (h0 : 0 ≤ d - today)
    (h14 : d - today ≤ 14) : process_ticker p today t = none := by
  cases hinfo : p.info t with
  | error e =>
    refine process_ticker_of_body_error (e := e) ?_
    unfold process_body
    rw [hinfo]
  | ok fields =>
    refine process_ticker_of_body_ok (r := none) ?_
    unfold process_body
    rw [hinfo]
    have hskip : earningsSkip today (p.earningsDate t) = true := by
      rw [hed]
      simp [earningsSkip, FILTER_EARNINGS, h0, h14]
    simp [hskip]

/-- Closed instance of `earnings_window_zero_rows`: the fixture with
earnings 7 days ahead emits nothing although price and cap pass. -/
theorem earnings_window_zero_rows_inst : process_ticker earnP 0 "T" = none :=
  earnings_window_zero_rows earnP 0 "T" 7 rfl (by norm_num) (by norm_num)

/-- C6: per ticker at most 3 rows are emitted (the literal `head(3)` of
src/app.py line 126); the rows are in ascending `delta_estimate` order;
each comes from an out-of-the-money contract of the fetched chain; and any
chain contract strictly closer to the money than an emitted row was itself
among the three selected contracts (so it can only have been dropped by
the liquidity gate, never in favour of a farther strike). -/
theorem selection_smallest_delta (p : Provider) (today : Int) (t : String)
    (rows : List CandidateRow) (h : process_ticker p today t = some rows) :
    rows.length ≤ 3 ∧
    rows.Pairwise (fun a b =>
      rowDelta (snapshotPrice p t) a ≤ rowDelta (snapshotPrice p t) b) ∧
    (∀ r ∈ rows, ∃ c ∈ fetchedPuts p t,
      r.putStrike = c.strike ∧ c.strike < snapshotPrice p t) ∧
    (∀ r ∈ rows, ∀ c ∈ fetchedPuts p t, c.strike < snapshotPrice p t →
      deltaEst (snapshotPrice p t) c < rowDelta (snapshotPrice p t) r →
      c ∈ (List.insertionSort (deltaLE (snapshotPrice p t))
        ((fetchedPuts p t).filter fun x =>
          decide (x.strike < snapshotPrice p t))).take 3) := by
  rcases process_ticker_eq_some h with
    ⟨fields, exps, puts, hinfo, hexps, hchain, -, -, -, -, hrows⟩
  rw [snapshotPrice_eq hinfo, fetchedPuts_eq hexps hchain]
  subst hrows
  refine ⟨?_, ?_, ?_, ?_⟩
  · unfold selectRows
    rw [List.length_map]
    calc (((List.insertionSort (deltaLE (fields.currentPrice.getD 0))
          (puts.filter fun c =>
            decide (c.strike < fields.currentPrice.getD 0))).take 3).filter
          fun c => ! liquidityDrop c).length
        ≤ ((List.insertionSort (deltaLE (fields.currentPrice.getD 0))
          (puts.filter fun c =>
            decide (c.strike < fields.currentPrice.getD 0))).take 3).length :=
          List.length_filter_le _ _
      _ ≤ 3 := by rw [List.length_take]; exact min_le_left _ _
  · unfold selectRows
    rw [List.pairwise_map]
    have hsorted : List.Pairwise (deltaLE (fields.currentPrice.getD 0))
        (List.insertionSort (deltaLE (fields.currentPrice.getD 0))
          (puts.filter fun c =>
            decide (c.strike < fields.currentPrice.getD 0))) :=
      List.sorted_insertionSort _ _
    have htake := List.Pairwise.sublist (List.take_sublist 3 _) hsorted
    exact (List.Pairwise.sublist (List.filter_sublist _) htake).imp
      fun hab => hab
  · intro r hr
    rcases selectRows_mem hr with ⟨c, hc, -, hrc⟩
    rcases mem_take3_otm hc with ⟨hcp, hlt⟩
    exact ⟨c, hcp, by rw [hrc]; rfl, hlt⟩
  · intro r hr c hcp hcotm hlt
    rcases selectRows_mem hr with ⟨a, ha, -, hra⟩
    refine take3_minimal ha hcp hcotm ?_
    have hda : rowDelta (fields.currentPrice.getD 0) r =
        deltaEst (fields.currentPrice.getD 0) a := by rw [hra]; rfl
    rwa [hda] at hlt

/-- Closed instance of `selection_smallest_delta` (its length bound) at the
well-behaved fixture. -/
theorem selection_smallest_delta_inst : ([rowFor "T"] : List CandidateRow).length ≤ 3 :=
  (selection_smallest_delta goodP 0 "T" [rowFor "T"]
    (by norm_num [process_ticker, process_body, selectRows, goodP, rowFor,
      earningsSkip, FILTER_EARNINGS, PRICE_MIN, PRICE_MAX, MARKET_CAP_MIN_B,
      DAYS_OUT, MIN_VOL, MIN_OI, capBOf, mkRow, round2, roundHalfEven,
      truncQ, liquidityDrop, ltNaN, deltaEst, List.insertionSort,
      List.orderedInsert, List.filter, List.take])).1

/-- C7 counterexample: with price 30 and bid 0.01 the emitted row stores
premium yield `round((0.01 / 30) * 100, 2) = 0.03`, which differs from the
exact `(bid / price) × 100 = 1/30`: the stored field is the two-decimal
rounding, not the exact quotient the claim states. -/
theorem premium_yield_not_exact :
    process_ticker thinBidP 0 "THN" =
      some [⟨"THN", 30, 2, none, 29, 1 / 100, 3 / 100, 50, 200, none⟩] ∧
    ¬ ((3 : ℚ) / 100 = 1 / 100 / 30 * 100) := by
  constructor
  · norm_num [process_ticker, process_body, selectRows, thinBidP,
      earningsSkip, FILTER_EARNINGS, PRICE_MIN, PRICE_MAX, MARKET_CAP_MIN_B,
      DAYS_OUT, MIN_VOL, MIN_OI, capBOf, mkRow, round2, roundHalfEven,
      truncQ, liquidityDrop, ltNaN, deltaEst, List.insertionSort,
      List.orderedInsert, List.filter, List.take]
  · norm_num

/-- C7 (amended): every emitted row's stored premium yield is
`round((bid / price) × 100, 2)` — the two-decimal rounding of the claimed
quotient — and rows only exist when the price passed the `PRICE_MIN = 5`
gate, so the zero-price fallback of src/app.py line 134 cannot fire on an
emitted row. -/
theorem premium_yield_rounded (p : Provider) (today : Int) (t : String)
    (rows : List CandidateRow) (h : process_ticker p today t = some rows) :
    0 < snapshotPrice p t ∧
    ∀ r ∈ rows, ∃ c ∈ fetchedPuts p t,
      r.putStrike = c.strike ∧ r.putBid = round2 c.bid ∧
      r.premiumYieldPercent = round2 (c.bid / snapshotPrice p t * 100) := by
  rcases process_ticker_eq_some h with
    ⟨fields, exps, puts, hinfo, hexps, hchain, -, hmin, -, -, hrows⟩
  rw [snapshotPrice_eq hinfo, fetchedPuts_eq hexps hchain]
  have hpos : 0 < fields.currentPrice.getD 0 :=
    lt_of_lt_of_le (by norm_num [PRICE_MIN]) hmin
  refine ⟨hpos, ?_⟩
  subst hrows
  intro r hr
  rcases selectRows_mem hr with ⟨c, hc, -, hrc⟩
  refine ⟨c, (mem_take3_otm hc).1, by rw [hrc]; rfl, by rw [hrc]; rfl, ?_⟩
  rw [hrc]
  show round2 (if 0 < fields.currentPrice.getD 0 then
    c.bid / fields.currentPrice.getD 0 * 100 else 0) = _
  rw [if_pos hpos]

/-- Closed instance of `premium_yield_rounded` (its price-positivity part)
at the well-behaved fixture. -/
theorem premium_yield_rounded_inst : 0 < snapshotPrice goodP "T" :=
  (premium_yield_rounded goodP 0 "T" [rowFor "T"]
    (by norm_num [process_ticker, process_body, selectRows, goodP, rowFor,
      earningsSkip, FILTER_EARNINGS, PRICE_MIN, PRICE_MAX, MARKET_CAP_MIN_B,
      DAYS_OUT, MIN_VOL, MIN_OI, capBOf, mkRow, round2, roundHalfEven,
      truncQ, liquidityDrop, ltNaN, deltaEst, List.insertionSort,
      List.orderedInsert, List.filter, List.take])).1

/-- C8 counterexample: a contract whose volume and open-interest cells are
both missing (`NaN`) is NOT dropped by the liquidity gate although both
thresholds are positive — `NaN < threshold` is `False` in the source, so
the `continue` of src/app.py line 136 is never reached and the row is
emitted (with the missing cells displayed as 0). -/
theorem missing_liquidity_passes_gate :
    nanPut.volume = none ∧ nanPut.openInterest = none ∧
    (0 : ℚ) < MIN_VOL ∧ (0 : ℚ) < MIN_OI ∧
    process_ticker nanChainP 0 "NAN" =
      some [⟨"NAN", 30, 2, none, 29, 1 / 5, 67 / 100, 0, 0, none⟩] := by
  refine ⟨rfl, rfl, by norm_num [MIN_VOL], by norm_num [MIN_OI], ?_⟩
  norm_num [process_ticker, process_body, selectRows, nanChainP, nanPut,
    earningsSkip, FILTER_EARNINGS, PRICE_MIN, PRICE_MAX, MARKET_CAP_MIN_B,
    DAYS_OUT, MIN_VOL, MIN_OI, capBOf, mkRow, round2, roundHalfEven,
    truncQ, liquidityDrop, ltNaN, deltaEst, List.insertionSort,
    List.orderedInsert, List.filter, List.take]

/-- C8 (amended): no missing numeric field raises a fault; an absent price
is read as 0 and so fails the fundamental gate (the ticker yields no rows);
but a missing volume or open-interest cell is NOT treated as zero by the
liquidity gate — the gate drops a contract only when the cell is PRESENT
and below its threshold — and a missing cell is rendered as 0 only in the
emitted row. -/
theorem missing_fields_defaults :
    (∀ (p : Provider) (today : Int) (t : String) (fields : TickerFields),
      p.info t = .ok fields → fields.currentPrice = none →
      process_ticker p today t = none) ∧
    (∀ c : PutContract, liquidityDrop c = true ↔
      ((∃ v, c.volume = some v ∧ v < MIN_VOL) ∨
       (∃ o, c.openInterest = some o ∧ o < MIN_OI))) ∧
    (∀ (t : String) (price capB : ℚ) (iv : Option ℚ) (ed : Option Int)
      (c : PutContract), c.volume = none → c.openInterest = none →
      (mkRow t price capB iv ed c).volume = 0 ∧
      (mkRow t price capB iv ed c).openInterest = 0) := by
  refine ⟨?_, ?_, ?_⟩
  · intro p today t fields hinfo hnone
    refine process_ticker_of_body_ok (r := none) ?_
    unfold process_body
    have hgate : ¬ (PRICE_MIN ≤ fields.currentPrice.getD 0 ∧
        fields.currentPrice.getD 0 ≤ PRICE_MAX ∧
        MARKET_CAP_MIN_B ≤ capBOf fields) := by
      rw [hnone]
      intro hall
      have h5 := hall.1
      norm_num [PRICE_MIN] at h5
    simp [hinfo, hgate]
  · intro c
    unfold liquidityDrop ltNaN
    cases hv : c.volume <;> cases ho : c.openInterest <;>
      simp [MIN_VOL, MIN_OI]
  · intro t price capB iv ed c hv ho
    unfold mkRow
    rw [hv, ho]
    norm_num [truncQ]

/-- C10: the implemented earnings gate: an absent earnings date never trips
it (the symbol falls through to the remaining gates), the window is the
fixed inclusive `0 ≤ daysToEarnings ≤ 14` of src/app.py line 107, and a
past earnings date (negative distance) never disqualifies. -/
theorem earnings_gate_fixed_window :
    (∀ today : Int, earningsSkip today none = false) ∧
    (∀ today d : Int,
      earningsSkip today (some d) = true ↔ 0 ≤ d - today ∧ d - today ≤ 14) ∧
    (∀ today d : Int, d - today < 0 →
      earningsSkip today (some d) = false) := by
  refine ⟨fun today => rfl, fun today d => ?_, fun today d hneg => ?_⟩
  · simp [earningsSkip, FILTER_EARNINGS]
  · have hlt := not_le.mpr hneg
    simp [earningsSkip, FILTER_EARNINGS, hlt]

/-- C2: a provider fault (a raised exception) while one symbol is being
processed is caught by the catch-all of src/app.py lines 152-154: the run
completes, the faulting symbol contributes zero rows, and the ranked rows
are exactly those of the same run with that symbol absent from the
universe. -/
theorem fault_isolated_run (p : Provider) (today : Int) (order : List String)
    (b : String) (hfault : process_body p today b = .error ()) :
    process_ticker p today b = none ∧
    (screen_stocks p today order).rows =
      (screen_stocks p today (order.filter fun t => t ≠ b)).rows := by
  have hnone := process_ticker_of_body_error hfault
  refine ⟨hnone, ?_⟩
  rw [screen_stocks_rows, screen_stocks_rows,
    ← accumulate_filter_of_none p today b hnone order]

/-- Closed instance of `fault_isolated_run`: ticker B's info fetch raises;
the two-ticker run returns exactly the rows of the run without B. -/
theorem fault_isolated_run_inst :
    process_ticker faultP 0 "B" = none ∧
    (screen_stocks faultP 0 ["A", "B"]).rows =
      (screen_stocks faultP 0 (["A", "B"].filter fun t => t ≠ "B")).rows :=
  fault_isolated_run faultP 0 ["A", "B"] "B"
    (by simp [process_body, faultP])

/-- C3 counterexample: two providers — one whose single symbol faults and
one whose single symbol evaluates successfully but matches no filter —
give runs with identical results, while their successfully-evaluated
counts differ (0 versus 1).  No function of the run result can read back
the count of successfully evaluated symbols, so the run returns no such
metadata. -/
theorem no_succeeded_metadata :
    ¬ ∃ f : ScreeningRun → Nat,
      ∀ pr : Provider,
        f (screen_stocks pr 0 ["A"]) = succeededCount pr 0 ["A"] := by
  rintro ⟨f, hf⟩
  have h1 := hf allFaultP
  have h2 := hf skipP
  have heq : screen_stocks allFaultP 0 ["A"] = screen_stocks skipP 0 ["A"] := by
    norm_num [screen_stocks, screenStep, process_ticker, process_body,
      allFaultP, skipP, earningsSkip, FILTER_EARNINGS, PRICE_MIN, PRICE_MAX,
      MARKET_CAP_MIN_B, capBOf]
  have hc1 : succeededCount allFaultP 0 ["A"] = 0 := by
    norm_num [succeededCount, process_body, allFaultP, List.filter]
  have hc2 : succeededCount skipP 0 ["A"] = 1 := by
    norm_num [succeededCount, process_body, skipP, earningsSkip,
      FILTER_EARNINGS, PRICE_MIN, PRICE_MAX, MARKET_CAP_MIN_B, capBOf,
      List.filter]
  rw [heq, hc1] at h1
  rw [hc2] at h2
  exact absurd (h1.symm.trans h2) (by norm_num)

/-- C3 (amended): a completed run returns the ranked rows — a permutation
of the accumulated candidates, sorted by market cap descending — plus a
progress trace with exactly one entry per symbol attempted; it carries no
count of successfully evaluated symbols (see `no_succeeded_metadata`). -/
theorem run_output_shape (p : Provider) (today : Int) (order : List String) :
    (screen_stocks p today order).progressTrace.length = order.length ∧
    ((screen_stocks p today order).rows).Perm (accumulate p today order) ∧
    List.Sorted capGE (screen_stocks p today order).rows :=
  ⟨screen_stocks_trace_length p today order,
   screen_rows_perm_accumulate p today order,
   screen_rows_sorted p today order⟩

/-- C9 counterexample: with two tickers of identical market cap, the two
completion orders of the same two-symbol universe produce different ranked
row orders: the final ranked order handed to presentation depends on the
accumulation order when displayed caps tie. -/
theorem ranked_order_completion_dependent :
    (["A", "B"] : List String).Perm ["B", "A"] ∧
    (screen_stocks goodP 0 ["A", "B"]).rows ≠
      (screen_stocks goodP 0 ["B", "A"]).rows := by
  constructor
  · exact List.Perm.swap "B" "A" []
  · norm_num [screen_stocks, screenStep, process_ticker, process_body,
      selectRows, goodP, earningsSkip, FILTER_EARNINGS, PRICE_MIN, PRICE_MAX,
      MARKET_CAP_MIN_B, DAYS_OUT, MIN_VOL, MIN_OI, capBOf, mkRow, round2,
      roundHalfEven, truncQ, liquidityDrop, ltNaN, deltaEst, deltaLE, capGE,
      List.insertionSort, List.orderedInsert, List.filter, List.take,
      (by decide : ("A" : String) ≠ "B"), (by decide : ("B" : String) ≠ "A")]

/-- C9 (amended): given identical provider responses, the multiset of
CandidateRows is independent of the completion order, and the ranked order
is too whenever no two rows tie on the displayed (rounded) market cap;
under a cap tie the ranked order can depend on completion order (see
`ranked_order_completion_dependent`). -/
theorem rows_perm_invariant (p : Provider) (today : Int)
    (o₁ o₂ : List String) (h : o₁.Perm o₂) :
    ((screen_stocks p today o₁).rows).Perm ((screen_stocks p today o₂).rows) ∧
    (((screen_stocks p today o₁).rows.map CandidateRow.marketCapB).Nodup →
      (screen_stocks p today o₁).rows = (screen_stocks p today o₂).rows) := by
  have hperm : ((screen_stocks p today o₁).rows).Perm
      ((screen_stocks p today o₂).rows) :=
    (screen_rows_perm_accumulate p today o₁).trans
      ((accumulate_perm p today h).trans
        (screen_rows_perm_accumulate p today o₂).symm)
  exact ⟨hperm, fun hn => ranked_eq_of_perm_of_nodup hperm
    (screen_rows_sorted p today o₁) (screen_rows_sorted p today o₂) hn⟩

/-- Closed instance of `rows_perm_invariant`: with pairwise-distinct caps
the two completion orders rank identically. -/
theorem rows_perm_invariant_inst :
    (screen_stocks twoCapP 0 ["A", "B"]).rows =
      (screen_stocks twoCapP 0 ["B", "A"]).rows :=
  (rows_perm_invariant twoCapP 0 ["A", "B"] ["B", "A"]
      (List.Perm.swap "B" "A" [])).2
    (by norm_num [screen_stocks, screenStep, process_ticker, process_body,
      selectRows, twoCapP, earningsSkip, FILTER_EARNINGS, PRICE_MIN,
      PRICE_MAX, MARKET_CAP_MIN_B, DAYS_OUT, MIN_VOL, MIN_OI, capBOf,
      mkRow, round2, roundHalfEven, truncQ, liquidityDrop, ltNaN, deltaEst,
      deltaLE, capGE, List.insertionSort, List.orderedInsert, List.filter,
      List.take, (by decide : ("A" : String) ≠ "B"),
      (by decide : ("B" : String) ≠ "A")])

end SpyWheel
